import Mathlib

/-!
Verification of the Invoice-MCP server core: the invoice totals computation,
schema-validation gate, PDF-generation pipeline outcomes, filename derivation,
metadata bookkeeping, and the file-serving guard.  Monetary amounts are
modelled as exact rationals; the JavaScript arithmetic applies no rounding of
its own, and the 2-decimal rounding of `toFixed(2)` is modelled separately as
a presentation-time operation.
-/

namespace InvoiceMCP

/-- A line item of an invoice.  `total` is present in the transported shape
(`InvoiceItem` in `shared/types/invoice.ts`); the handlers always overwrite it
with `quantity * unitPrice`. -/
structure InvoiceItem where
  description : String
  quantity : ℚ
  unitPrice : ℚ
  total : ℚ
deriving Repr, DecidableEq

/-- `itemsWithTotals` from the `generate-invoice-pdf` handlers
(`src/unnamed/part_003` lines 76-79 and the identical code in parts 004, 005,
006, 007 and `index-smithery-robust.ts`): every item's `total` is replaced by
`quantity * unitPrice`, whatever the caller supplied. -/
def itemsWithTotals (items : List InvoiceItem) : List InvoiceItem :=
  items.map (fun item => { item with total := item.quantity * item.unitPrice })

/-- The `reduce((sum, item) => sum + item.total, 0)` subtotal
(`src/unnamed/part_003` lines 81-84): a left fold over the items in input
order starting from 0. -/
def subtotalOf (items : List InvoiceItem) : ℚ :=
  items.foldl (fun sum item => sum + item.total) 0

/-- The raw invoice input reaching the totals computation: the fields of the
transported `Invoice` shape that the computation and the validation gate
consume. -/
structure RawInvoice where
  invoiceNumber : String
  customerName : String
  items : List InvoiceItem
  vatRate : ℚ
  currency : Option String
deriving Repr, DecidableEq

/-- The assembled invoice (`calculatedInvoice` in `src/unnamed/part_003`
lines 88-96): input fields plus the derived `subtotal`, `vatAmount` and
`total`. -/
structure Invoice where
  invoiceNumber : String
  customerName : String
  items : List InvoiceItem
  vatRate : ℚ
  currency : Option String
  subtotal : ℚ
  vatAmount : ℚ
  total : ℚ
deriving Repr, DecidableEq

/-- The totals computation of the `generate-invoice-pdf` handler
(`src/unnamed/part_003` lines 76-96): recompute every item total, fold the
subtotal in input order, then `vatAmount = subtotal * vatRate` and
`total = subtotal + vatAmount`.  No rounding is applied anywhere. -/
def calculateInvoice (raw : RawInvoice) : Invoice :=
  let its := itemsWithTotals raw.items
  let subtotal := subtotalOf its
  let vatAmount := subtotal * raw.vatRate
  let total := subtotal + vatAmount
  { invoiceNumber := raw.invoiceNumber
    customerName := raw.customerName
    items := its
    vatRate := raw.vatRate
    currency := raw.currency
    subtotal := subtotal
    vatAmount := vatAmount
    total := total }

theorem foldl_add_total (items : List InvoiceItem) (a : ℚ) :
    items.foldl (fun sum item => sum + item.total) a =
      a + (items.map (fun item => item.total)).sum := by
  induction items generalizing a with
  | nil => simp
  | cons head tail ih =>
      simp only [List.foldl_cons, List.map_cons, List.sum_cons, ih]
      ring

theorem subtotalOf_eq_sum (items : List InvoiceItem) :
    subtotalOf items = (items.map (fun item => item.total)).sum := by
  simp [subtotalOf, foldl_add_total]

theorem itemsWithTotals_map_total (items : List InvoiceItem) :
    (itemsWithTotals items).map (fun item => item.total) =
      items.map (fun item => item.quantity * item.unitPrice) := by
  simp [itemsWithTotals]

/-- Scenario A of the spec: Web development 10 × 75 and Logo design 5 × 60 at
VAT rate 0.20. -/
def scenarioARaw : RawInvoice :=
  { invoiceNumber := "INV-001"
    customerName := "Client"
    items :=
      [ { description := "Web development", quantity := 10, unitPrice := 75, total := 0 }
      , { description := "Logo design", quantity := 5, unitPrice := 60, total := 0 } ]
    vatRate := 1/5
    currency := some "GBP" }

/-- Claim C1: for every item list and vatRate the computation sets `subtotal`
to the input-order sum of `quantity * unitPrice`, `vatAmount` to
`subtotal * vatRate` and `total` to `subtotal + vatAmount`; Scenario A
(10 × 75 and 5 × 60 at rate 0.20) yields subtotal 1050, vatAmount 210 and
total 1260. -/
theorem generate_invoice_pdf_totals :
    (∀ raw : RawInvoice,
        (calculateInvoice raw).subtotal =
          (raw.items.map (fun item => item.quantity * item.unitPrice)).sum ∧
        (calculateInvoice raw).vatAmount =
          (calculateInvoice raw).subtotal * raw.vatRate ∧
        (calculateInvoice raw).total =
          (calculateInvoice raw).subtotal + (calculateInvoice raw).vatAmount) ∧
    ((calculateInvoice scenarioARaw).subtotal = 1050 ∧
     (calculateInvoice scenarioARaw).vatAmount = 210 ∧
     (calculateInvoice scenarioARaw).total = 1260) := by
  refine ⟨fun raw => ⟨?_, rfl, rfl⟩, ?_, ?_, ?_⟩
  · simp [calculateInvoice, subtotalOf_eq_sum, itemsWithTotals_map_total]
  all_goals
    simp [calculateInvoice, subtotalOf_eq_sum, itemsWithTotals_map_total, scenarioARaw]
    norm_num

/-- Claim C2: the computed item totals are exactly `quantity * unitPrice`
position by position, and the whole computation is invariant under replacing
every caller-supplied `total` field by an arbitrary value: the supplied value
never reaches the assembled invoice, its subtotal, vatAmount or grand
total. -/
theorem caller_supplied_totals_ignored :
    (∀ items : List InvoiceItem,
        (itemsWithTotals items).map (fun item => item.total) =
          items.map (fun item => item.quantity * item.unitPrice)) ∧
    (∀ (raw : RawInvoice) (suppliedTotal : InvoiceItem → ℚ),
        calculateInvoice
            { raw with
              items := raw.items.map (fun item => { item with total := suppliedTotal item }) } =
          calculateInvoice raw) := by
  constructor
  · exact itemsWithTotals_map_total
  · intro raw suppliedTotal
    have hitems :
        itemsWithTotals
            (raw.items.map (fun item => { item with total := suppliedTotal item })) =
          itemsWithTotals raw.items := by
      simp [itemsWithTotals]
    simp [calculateInvoice, hitems]

/-! ## Schema validation

The zod `InvoiceSchema` lives in `shared/types/invoice.ts`, which is not part
of the repository snapshot; only its `safeParse` call sites are.  The checks
below are therefore modelled from the spec. -/

/-- A single violated field reported by validation. -/
inductive FieldViolation where
  | emptyItems
  | nonPositiveQuantity (index : Nat)
  | negativeUnitPrice (index : Nat)
  | emptyDescription (index : Nat)
  | unsupportedCurrency (value : String)
deriving Repr, DecidableEq

/-- The currency enum of the spec: GBP, USD, EUR, CAD. -/
def allowedCurrencies : List String := ["GBP", "USD", "EUR", "CAD"]

/-- Per-item violations, indexed from `start`: positive quantity, non-negative
unit price, non-empty description. -/
def itemViolationsFrom : Nat → List InvoiceItem → List FieldViolation
  | _, [] => []
  | start, item :: rest =>
      (if item.quantity ≤ 0 then [FieldViolation.nonPositiveQuantity start] else []) ++
      (if item.unitPrice < 0 then [FieldViolation.negativeUnitPrice start] else []) ++
      (if item.description = "" then [FieldViolation.emptyDescription start] else []) ++
      itemViolationsFrom (start + 1) rest

def itemViolations (items : List InvoiceItem) : List FieldViolation :=
  itemViolationsFrom 0 items

def currencyViolations (currency : Option String) : List FieldViolation :=
  match currency with
  | none => []
  | some value =>
      if allowedCurrencies.contains value then [] else [FieldViolation.unsupportedCurrency value]

/-- Modelled from the spec: the zod `InvoiceSchema` of
`shared/types/invoice.ts` is absent from the snapshot.  Per spec sections 3,
4.1 and 7 it requires a non-empty items list, `quantity > 0`,
`unitPrice >= 0`, non-empty descriptions and a currency in the allowed set,
and `safeParse` reports every violation, not only the first.  The result is
the list of all violations; the invoice is valid exactly when it is empty. -/
def validateInvoice (inv : Invoice) : List FieldViolation :=
  (if inv.items.isEmpty then [FieldViolation.emptyItems] else []) ++
  itemViolations inv.items ++ currencyViolations inv.currency

/-! ## The generation pipeline -/

/-- PDF bytes produced by the renderer, kept abstract as a byte list. -/
abbrev PdfBytes := List Nat

/-- Outcome of one `generate-invoice-pdf` call in the local-file variants
(`src/unnamed/part_003` lines 98-150): a validation failure returns the
formatted violations, a renderer exception is caught and reported with no
URL, and success reports the derived filename and its download URL. -/
inductive GenerateOutcome where
  | validationFailed (violations : List FieldViolation)
  | renderFailed
  | success (filename : String) (downloadUrl : String)
deriving Repr, DecidableEq

/-- The filename derivation of the local-file variants
(`src/unnamed/part_003` line 135): `invoice-<invoiceNumber>.pdf`. -/
def pdfFilename (invoiceNumber : String) : String :=
  "invoice-" ++ invoiceNumber ++ ".pdf"

/-- The `generate-invoice-pdf` handler of `src/unnamed/part_003` lines
76-150, parameterised by the renderer (`generateInvoicePdf` lives in the
absent `shared/components/invoice-template.ts`): compute totals, gate on
validation, render, and only then publish the download URL. -/
def handleGenerate (raw : RawInvoice)
    (render : Invoice → Except String PdfBytes) : GenerateOutcome :=
  let inv := calculateInvoice raw
  let violations := validateInvoice inv
  if violations.isEmpty then
    match render inv with
    | Except.error _ => GenerateOutcome.renderFailed
    | Except.ok _ =>
        let filename := pdfFilename raw.invoiceNumber
        GenerateOutcome.success filename ("/files/" ++ filename)
  else
    GenerateOutcome.validationFailed violations

/-- The storage locator visible in an outcome, if any. -/
def locatorOf : GenerateOutcome → Option String
  | GenerateOutcome.success _ url => some url
  | _ => none

/-! ## The natural-language variant (`src/unnamed/part_006`) -/

/-- The fallback item of `parseInvoiceDescription`
(`src/unnamed/part_006` lines 105-113): "Service rendered", quantity 1, unit
price 100.00. -/
def defaultServiceItem : InvoiceItem :=
  { description := "Service rendered", quantity := 1, unitPrice := 100, total := 100 }

/-- The default-item fallback of `parseInvoiceDescription`: when the regex
extraction found no items, a default item is inserted instead of reporting
the empty list. -/
def itemsOrDefault (parsed : List InvoiceItem) : List InvoiceItem :=
  if parsed.isEmpty then [defaultServiceItem] else parsed

/-- The invoice assembled by `parseInvoiceDescription`
(`src/unnamed/part_006` lines 115-146) from the items the regex pass
extracted: invoice number `INV-<Date.now()>`, hard-coded vatRate 0.20, the
configured currency, and the default "Client Name" customer when the
description names none. -/
def descriptionRawInvoice (parsed : List InvoiceItem) (now : Nat)
    (currency : String) : RawInvoice :=
  { invoiceNumber := "INV-" ++ toString now
    customerName := "Client Name"
    items := itemsOrDefault parsed
    vatRate := 1/5
    currency := some currency }

/-- The `generate-invoice-pdf` handler of `src/unnamed/part_006` lines
192-263: parse the description (represented here by the item list its regex
pass extracted), then run the same totals/validation/render pipeline. -/
def handleGenerateDescription (parsed : List InvoiceItem) (now : Nat)
    (currency : String) (render : Invoice → Except String PdfBytes) : GenerateOutcome :=
  handleGenerate (descriptionRawInvoice parsed now currency) render

/-- Claim C3 counterexample: in the natural-language variant a generation
request whose extracted item list is empty is not rejected — the default item
is substituted and a PDF is produced and published. -/
theorem empty_items_rendered_in_description_variant :
    handleGenerateDescription [] 42 "GBP" (fun _ => Except.ok [0]) =
      GenerateOutcome.success "invoice-INV-42.pdf" "/files/invoice-INV-42.pdf" := by
  rfl

/-- Claim C3, amended: in the structured-input variants an empty items list
always fails validation with the empty-items violation and the renderer is
never invoked (the outcome does not depend on the renderer); but in the
natural-language variant an empty extracted item list is replaced by the
default item before validation, so such a request is rendered instead of
rejected. -/
theorem empty_items_rejected :
    (∀ (raw : RawInvoice) (render render' : Invoice → Except String PdfBytes),
        raw.items = [] →
        handleGenerate raw render =
          GenerateOutcome.validationFailed (validateInvoice (calculateInvoice raw)) ∧
        FieldViolation.emptyItems ∈ validateInvoice (calculateInvoice raw) ∧
        handleGenerate raw render = handleGenerate raw render') ∧
    (∀ (now : Nat) (currency : String),
        (descriptionRawInvoice [] now currency).items = [defaultServiceItem]) := by
  constructor
  · intro raw render render' hempty
    have hval : validateInvoice (calculateInvoice raw) =
        FieldViolation.emptyItems :: currencyViolations raw.currency := by
      simp [validateInvoice, calculateInvoice, itemsWithTotals, itemViolations,
        itemViolationsFrom, hempty]
    refine ⟨?_, ?_, ?_⟩
    · simp [handleGenerate, hval]
    · simp [hval]
    · simp [handleGenerate, hval]
  · intro now currency
    simp [descriptionRawInvoice, itemsOrDefault]

/-- Claim C3 witness: the amended statement at the concrete empty-items
request. -/
theorem empty_items_rejected_witness :
    handleGenerate
        { invoiceNumber := "INV-9", customerName := "C", items := [], vatRate := 1/5,
          currency := some "GBP" }
        (fun _ => Except.ok [0]) =
      GenerateOutcome.validationFailed
        (validateInvoice
          (calculateInvoice
            { invoiceNumber := "INV-9", customerName := "C", items := [], vatRate := 1/5,
              currency := some "GBP" })) ∧
    FieldViolation.emptyItems ∈
      validateInvoice
        (calculateInvoice
          { invoiceNumber := "INV-9", customerName := "C", items := [], vatRate := 1/5,
            currency := some "GBP" }) := by
  have h :=
    (empty_items_rejected.1
      { invoiceNumber := "INV-9", customerName := "C", items := [], vatRate := 1/5,
        currency := some "GBP" }
      (fun _ => Except.ok [0]) (fun _ => Except.ok [0]) rfl)
  exact ⟨h.1, h.2.1⟩

/-- A doubly invalid invoice: non-positive quantity and empty description on
item 0, negative unit price on item 1, unsupported currency. -/
def multiViolationRaw : RawInvoice :=
  { invoiceNumber := "INV-2"
    customerName := "C"
    items :=
      [ { description := "", quantity := 0, unitPrice := 5, total := 0 }
      , { description := "b", quantity := 1, unitPrice := -2, total := 0 } ]
    vatRate := 1/5
    currency := some "XYZ" }

/-- Claim C4: whenever validation fails, the caller receives the full list of
violated fields (the outcome carries every violation, not only the first),
the handler returns normally, and the renderer is never invoked — the outcome
is independent of the render function.  The concrete invoice
`multiViolationRaw` shows all four of its violations being enumerated. -/
theorem validation_failure_enumerates_all :
    (∀ (raw : RawInvoice) (render render' : Invoice → Except String PdfBytes),
        validateInvoice (calculateInvoice raw) ≠ [] →
        handleGenerate raw render =
          GenerateOutcome.validationFailed (validateInvoice (calculateInvoice raw)) ∧
        handleGenerate raw render = handleGenerate raw render') ∧
    validateInvoice (calculateInvoice multiViolationRaw) =
      [ FieldViolation.nonPositiveQuantity 0
      , FieldViolation.emptyDescription 0
      , FieldViolation.negativeUnitPrice 1
      , FieldViolation.unsupportedCurrency "XYZ" ] := by
  constructor
  · intro raw render render' hfail
    have hne : (validateInvoice (calculateInvoice raw)).isEmpty = false := by
      cases hlist : validateInvoice (calculateInvoice raw) with
      | nil => exact absurd hlist hfail
      | cons a l => simp
    constructor <;> simp [handleGenerate, hne]
  · decide

/-- Claim C4 witness: the theorem applied at the concrete multi-violation
invoice. -/
theorem validation_failure_enumerates_all_witness :
    handleGenerate multiViolationRaw (fun _ => Except.ok [0]) =
      GenerateOutcome.validationFailed (validateInvoice (calculateInvoice multiViolationRaw)) :=
  (validation_failure_enumerates_all.1 multiViolationRaw
    (fun _ => Except.ok [0]) (fun _ => Except.error "boom") (by decide)).1

/-! ## The Supabase variants (`src/unnamed/part_005`,
`src/server/src/index-smithery-robust.ts`) -/

/-- The arguments of the Supabase `generate-invoice-pdf` tool
(`handleGenerateInvoice`): flat fields with optional currency and vatRate. -/
structure RobustArgs where
  invoiceNumber : String
  clientName : String
  items : List InvoiceItem
  currency : Option String
  vatRate : Option ℚ
deriving Repr, DecidableEq

/-- The destructuring default `currency = "GBP"` of `handleGenerateInvoice`
(`src/unnamed/part_005` line 454). -/
def resolvedCurrency (args : RobustArgs) : String :=
  args.currency.getD "GBP"

/-- The destructuring default `vatRate = 0.20` of `handleGenerateInvoice`
(`src/unnamed/part_005` line 455). -/
def resolvedVatRate (args : RobustArgs) : ℚ :=
  args.vatRate.getD (1/5)

/-- The invoice object `handleGenerateInvoice` assembles before validation
(`src/unnamed/part_005` lines 460-495), restricted to the fields the
computation consumes. -/
def robustRawInvoice (args : RobustArgs) : RawInvoice :=
  { invoiceNumber := args.invoiceNumber
    customerName := args.clientName
    items := args.items
    vatRate := resolvedVatRate args
    currency := some (resolvedCurrency args) }

/-- The filename derivation of the Supabase variants
(`src/unnamed/part_005` line 509, `index-smithery-robust.ts` line 405):
`invoice-<invoiceNumber>-<Date.now()>.pdf`. -/
def pdfFilenameRobust (invoiceNumber : String) (now : Nat) : String :=
  "invoice-" ++ invoiceNumber ++ "-" ++ toString now ++ ".pdf"

/-- Outcome of one Supabase `generate-invoice-pdf` call: errors thrown by
validation, the renderer or the upload are caught by the request handler and
reported as error text with no URL; success reports the storage URL. -/
inductive RobustOutcome where
  | validationFailed (violations : List FieldViolation)
  | renderFailed
  | uploadFailed
  | success (filename : String) (pdfUrl : String)
deriving Repr, DecidableEq

/-- `handleGenerateInvoice` of `index-smithery-robust.ts` lines 344-434 (and
`src/unnamed/part_005` lines 448-541): compute totals, validate, render to a
buffer, and only after a successful render upload the buffer and publish the
returned URL. -/
def handleGenerateRobust (args : RobustArgs) (now : Nat)
    (render : Invoice → Except String PdfBytes)
    (upload : PdfBytes → String → Except String String) : RobustOutcome :=
  let inv := calculateInvoice (robustRawInvoice args)
  let violations := validateInvoice inv
  if violations.isEmpty then
    match render inv with
    | Except.error _ => RobustOutcome.renderFailed
    | Except.ok bytes =>
        match upload bytes (pdfFilenameRobust args.invoiceNumber now) with
        | Except.error _ => RobustOutcome.uploadFailed
        | Except.ok url => RobustOutcome.success (pdfFilenameRobust args.invoiceNumber now) url
  else
    RobustOutcome.validationFailed violations

/-- The storage locator visible in a Supabase outcome, if any. -/
def robustLocatorOf : RobustOutcome → Option String
  | RobustOutcome.success _ url => some url
  | _ => none

/-- Claim C5: when the renderer fails on a validated invoice, the local-file
handler reports a render failure with no download URL, and the Supabase
handler reports a render failure with no storage locator and never invokes
the upload — its outcome is independent of the upload function. -/
theorem render_failure_publishes_no_locator :
    (∀ (raw : RawInvoice) (render : Invoice → Except String PdfBytes) (e : String),
        validateInvoice (calculateInvoice raw) = [] →
        render (calculateInvoice raw) = Except.error e →
        handleGenerate raw render = GenerateOutcome.renderFailed ∧
        locatorOf (handleGenerate raw render) = none) ∧
    (∀ (args : RobustArgs) (now : Nat) (render : Invoice → Except String PdfBytes)
        (upload upload' : PdfBytes → String → Except String String) (e : String),
        validateInvoice (calculateInvoice (robustRawInvoice args)) = [] →
        render (calculateInvoice (robustRawInvoice args)) = Except.error e →
        handleGenerateRobust args now render upload = RobustOutcome.renderFailed ∧
        robustLocatorOf (handleGenerateRobust args now render upload) = none ∧
        handleGenerateRobust args now render upload =
          handleGenerateRobust args now render upload') := by
  constructor
  · intro raw render e hvalid hrender
    constructor <;> simp [handleGenerate, hvalid, hrender, locatorOf]
  · intro args now render upload upload' e hvalid hrender
    refine ⟨?_, ?_, ?_⟩ <;> simp [handleGenerateRobust, hvalid, hrender, robustLocatorOf]

/-- A structurally valid invoice request used as the render-failure
witness. -/
def validRobustArgs : RobustArgs :=
  { invoiceNumber := "INV-7"
    clientName := "Client"
    items := [ { description := "Work", quantity := 2, unitPrice := 50, total := 0 } ]
    currency := some "GBP"
    vatRate := some (1/5) }

/-- Claim C5 witness: the theorem applied to a valid invoice whose renderer
always fails. -/
theorem render_failure_publishes_no_locator_witness :
    handleGenerateRobust validRobustArgs 42 (fun _ => Except.error "boom")
        (fun _ _ => Except.ok "https://example.org/x.pdf") = RobustOutcome.renderFailed ∧
    robustLocatorOf
        (handleGenerateRobust validRobustArgs 42 (fun _ => Except.error "boom")
          (fun _ _ => Except.ok "https://example.org/x.pdf")) = none := by
  have h :=
    render_failure_publishes_no_locator.2 validRobustArgs 42 (fun _ => Except.error "boom")
      (fun _ _ => Except.ok "https://example.org/x.pdf")
      (fun _ _ => Except.error "down") "boom" (by decide) rfl
  exact ⟨h.1, h.2.1⟩

/-! ## Filenames and the overwrite policy -/

/-- A flat model of the `temp/` directory: writing a file replaces any
existing entry at the same path, as the filesystem write in
`generateInvoicePdf` does. -/
def fsWrite (fs : List (String × PdfBytes)) (path : String) (bytes : PdfBytes) :
    List (String × PdfBytes) :=
  (path, bytes) :: fs.filter (fun entry => entry.1 ≠ path)

/-- Claim C6 counterexample: in the Supabase variants the produced filename
carries a timestamp, so a successfully generated invoice is not named
`invoice-<invoiceNumber>.pdf`. -/
theorem robust_filename_not_plain :
    pdfFilenameRobust "INV-001" 1234 = "invoice-INV-001-1234.pdf" ∧
    pdfFilenameRobust "INV-001" 1234 ≠ pdfFilename "INV-001" := by
  constructor <;> decide

/-- Claim C6, amended: the local-file variants derive exactly
`invoice-<invoiceNumber>.pdf`, so regenerating the same invoice number writes
the same path and overwrites the previous file (the store keeps a single
entry for the path, holding the latest bytes); the Supabase variants instead
derive `invoice-<invoiceNumber>-<timestamp>.pdf`. -/
theorem filename_and_overwrite_policy :
    (∀ invoiceNumber : String,
        pdfFilename invoiceNumber = "invoice-" ++ invoiceNumber ++ ".pdf") ∧
    (∀ (fs : List (String × PdfBytes)) (path : String) (b1 b2 : PdfBytes),
        (fsWrite (fsWrite fs path b1) path b2).lookup path = some b2 ∧
        ((fsWrite (fsWrite fs path b1) path b2).filter
            (fun entry => entry.1 = path)).length = 1) ∧
    (∀ (invoiceNumber : String) (now : Nat),
        pdfFilenameRobust invoiceNumber now =
          "invoice-" ++ invoiceNumber ++ "-" ++ toString now ++ ".pdf") := by
  refine ⟨fun _ => rfl, ?_, fun _ _ => rfl⟩
  intro fs path b1 b2
  constructor
  · simp [fsWrite, List.lookup]
  · have hnone :
        ∀ l : List (String × PdfBytes),
          (l.filter (fun entry => entry.1 ≠ path)).filter
              (fun entry => entry.1 = path) = [] := by
      intro l
      induction l with
      | nil => rfl
      | cons head tail ih =>
          by_cases h : head.1 = path <;> simp [List.filter, h, ih]
    simp [fsWrite, hnone]

/-! ## String helpers for prefix, substring and suffix tests -/

/-- `charsHavePre p l` is true when `p` is an initial segment of `l`. -/
def charsHavePre : List Char → List Char → Bool
  | [], _ => true
  | _ :: _, [] => false
  | a :: as, b :: bs => a == b && charsHavePre as bs

/-- `charsHaveSeg p l` is true when `p` occurs contiguously inside `l`. -/
def charsHaveSeg (p : List Char) : List Char → Bool
  | [] => p.isEmpty
  | c :: rest => charsHavePre p (c :: rest) || charsHaveSeg p rest

/-- `startsWith` of JavaScript strings. -/
def strStartsWith (s pat : String) : Bool :=
  charsHavePre pat.toList s.toList

/-- `includes` of JavaScript strings: contiguous substring. -/
def strIncludes (s pat : String) : Bool :=
  charsHaveSeg pat.toList s.toList

/-- `endsWith` of JavaScript strings. -/
def strEndsWith (s pat : String) : Bool :=
  charsHavePre pat.toList.reverse s.toList.reverse

theorem charsHavePre_append (p s : List Char) : charsHavePre p (p ++ s) = true := by
  induction p with
  | nil => rfl
  | cons a as ih => simp [charsHavePre, ih]

theorem strStartsWith_append (p s : String) : strStartsWith (p ++ s) p = true := by
  show charsHavePre p.data (p ++ s).data = true
  rw [String.data_append]
  exact charsHavePre_append p.data s.data

/-! ## Presentation-time formatting -/

/-- `toFixed(2)` of JavaScript numbers, modelled on exact rationals: scale by
100, round to the nearest integer, and print with exactly two fractional
digits. -/
def toFixed2 (q : ℚ) : String :=
  let scaled : ℤ := round (q * 100)
  let fracPart : ℕ := (scaled % 100).natAbs
  toString (scaled / 100) ++ "." ++ (if fracPart < 10 then "0" else "") ++ toString fracPart

/-- Rounding a monetary amount to 2 decimal places, the operation the code
applies only at presentation time. -/
def round2 (q : ℚ) : ℚ :=
  (round (q * 100) : ℚ) / 100

/-- The monetary portion of the Supabase response line
`Total: ${currency} ${total.toFixed(2)}` (`src/unnamed/part_005`
line 523). -/
def responseTotalLine (args : RobustArgs) (total : ℚ) : String :=
  resolvedCurrency args ++ " " ++ toFixed2 total

/-! ## The Smithery-stateless variant's currency defaults
(`src/unnamed/part_007`) -/

/-- The zod default of `defaultCurrency` in the part_007 `configSchema`
(line 23): "GBP" when the deployment configuration leaves it unset. -/
def configDefaultCurrency (given : Option String) : String :=
  given.getD "GBP"

/-- The currency resolution of `finalInvoiceData`
(`src/unnamed/part_007` line 86): `invoiceData.currency ||
config.defaultCurrency`, where the JavaScript `||` also treats the empty
string as absent. -/
def smitheryFinalCurrency (invoiceCurrency : Option String) (cfgCurrency : String) : String :=
  match invoiceCurrency with
  | none => cfgCurrency
  | some c => if c = "" then cfgCurrency else c

/-- Claim C7 counterexample: in the part_007 variant a generation request
omitting currency takes the configured `defaultCurrency`; with a deployment
configured to "USD" the invoice currency is "USD", not GBP. -/
theorem omitted_currency_follows_config :
    smitheryFinalCurrency none (configDefaultCurrency (some "USD")) = "USD" ∧
    smitheryFinalCurrency none (configDefaultCurrency (some "USD")) ≠ "GBP" := by
  constructor <;> decide

/-- Claim C7, amended: in the Supabase handler an omitted currency resolves
to "GBP" and the response total line carries the "GBP " prefix, and an
omitted vatRate resolves to 0.20 and drives the VAT computation; in the
part_007 variant an omitted currency falls back to the configured
`defaultCurrency`, which is "GBP" exactly when the configuration leaves it
unset. -/
theorem omitted_currency_and_vat_defaults :
    (∀ (args : RobustArgs) (total : ℚ),
        args.currency = none →
        resolvedCurrency args = "GBP" ∧
        strStartsWith (responseTotalLine args total) "GBP " = true) ∧
    (∀ args : RobustArgs,
        args.vatRate = none →
        resolvedVatRate args = 1/5 ∧
        (calculateInvoice (robustRawInvoice args)).vatAmount =
          (calculateInvoice (robustRawInvoice args)).subtotal * (1/5)) ∧
    smitheryFinalCurrency none (configDefaultCurrency none) = "GBP" := by
  refine ⟨?_, ?_, rfl⟩
  · intro args total hcur
    have hres : resolvedCurrency args = "GBP" := by
      simp [resolvedCurrency, hcur]
    refine ⟨hres, ?_⟩
    have hline : responseTotalLine args total = "GBP " ++ toFixed2 total := by
      show resolvedCurrency args ++ " " ++ toFixed2 total = "GBP " ++ toFixed2 total
      rw [hres]
      rfl
    rw [hline]
    exact strStartsWith_append "GBP " (toFixed2 total)
  · intro args hvat
    have hres : resolvedVatRate args = 1/5 := by
      simp [resolvedVatRate, hvat]
    exact ⟨hres, by simp [calculateInvoice, robustRawInvoice, hres]⟩

/-- A request omitting both currency and vatRate, for the C7 witness. -/
def argsOmittingDefaults : RobustArgs :=
  { invoiceNumber := "INV-8"
    clientName := "Client"
    items := [ { description := "Work", quantity := 1, unitPrice := 10, total := 0 } ]
    currency := none
    vatRate := none }

/-- Claim C7 witness: the amended statement at a concrete request omitting
currency and vatRate. -/
theorem omitted_currency_and_vat_defaults_witness :
    (resolvedCurrency argsOmittingDefaults = "GBP" ∧
     strStartsWith (responseTotalLine argsOmittingDefaults 12) "GBP " = true) ∧
    resolvedVatRate argsOmittingDefaults = 1/5 :=
  ⟨omitted_currency_and_vat_defaults.1 argsOmittingDefaults 12 rfl,
   (omitted_currency_and_vat_defaults.2.1 argsOmittingDefaults rfl).1⟩

/-! ## Internal amounts are exact; rounding is presentation-only -/

/-- A request whose exact grand total (119.9988) is not equal to its own
2-decimal rounding (120). -/
def unroundedDemoRaw : RawInvoice :=
  { invoiceNumber := "INV-3"
    customerName := "C"
    items := [ { description := "Consulting", quantity := 3, unitPrice := 33333/1000, total := 0 } ]
    vatRate := 1/5
    currency := some "GBP" }

/-- Claim C8: the assembled invoice holds the exact unrounded amounts — every
item total, the subtotal, the vatAmount and the grand total are the exact
products and sums for every input — and 2-decimal rounding happens only when
an amount is formatted for presentation: at the demo input the stored total
is 299997/2500 (= 119.9988), which differs from its 2-decimal rounding, while
the presentation string is the rounded "120.00". -/
theorem monetary_amounts_unrounded_internally :
    (∀ raw : RawInvoice,
        (calculateInvoice raw).items.map (fun item => item.total) =
          raw.items.map (fun item => item.quantity * item.unitPrice) ∧
        (calculateInvoice raw).subtotal =
          ((calculateInvoice raw).items.map (fun item => item.total)).sum ∧
        (calculateInvoice raw).vatAmount = (calculateInvoice raw).subtotal * raw.vatRate ∧
        (calculateInvoice raw).total =
          (calculateInvoice raw).subtotal + (calculateInvoice raw).vatAmount) ∧
    ((calculateInvoice unroundedDemoRaw).total = 299997/2500 ∧
     round2 ((calculateInvoice unroundedDemoRaw).total) ≠ (calculateInvoice unroundedDemoRaw).total ∧
     toFixed2 ((calculateInvoice unroundedDemoRaw).total) = "120.00") := by
  have htotal : (calculateInvoice unroundedDemoRaw).total = 299997/2500 := by
    simp [calculateInvoice, unroundedDemoRaw, subtotalOf, itemsWithTotals]
    norm_num
  have hround : round ((299997/2500 : ℚ) * 100) = 12000 := by
    rw [round_eq]
    norm_num
  refine ⟨?_, htotal, ?_, ?_⟩
  · intro raw
    exact ⟨by simp [calculateInvoice, itemsWithTotals_map_total],
           by simp [calculateInvoice, subtotalOf_eq_sum], rfl, rfl⟩
  · rw [htotal]
    simp only [round2, hround]
    norm_num
  · rw [htotal]
    simp only [toFixed2, hround]
    decide

/-! ## Invoice metadata bookkeeping (`src/unnamed/part_004` lines 278-298,
`src/server/src/shared/utils/cloud-storage.ts` lines 221-238) -/

/-- The tracked metadata record of one generated invoice. -/
structure InvoiceMetadata where
  invoiceNumber : String
  filename : String
  downloadUrl : String
  createdAt : String
  total : String
  currency : String
  clientName : String
  status : String
deriving Repr, DecidableEq

/-- `saveInvoiceMetadata` / `MetadataStorage.saveMetadata`: filter out any
existing entry with the same invoice number, then append the new record. -/
def saveInvoiceMetadata (existing : List InvoiceMetadata)
    (metadata : InvoiceMetadata) : List InvoiceMetadata :=
  existing.filter (fun inv => inv.invoiceNumber ≠ metadata.invoiceNumber) ++ [metadata]

theorem filter_ne_then_eq {α : Type} (key : α → String) (v : String) (l : List α) :
    (l.filter (fun x => key x ≠ v)).filter (fun x => key x = v) = [] := by
  induction l with
  | nil => rfl
  | cons a rest ih => by_cases h : key a = v <;> simp [List.filter, h, ih]

theorem saveInvoiceMetadata_nodup (existing : List InvoiceMetadata)
    (m : InvoiceMetadata)
    (h : (existing.map (fun inv => inv.invoiceNumber)).Nodup) :
    ((saveInvoiceMetadata existing m).map (fun inv => inv.invoiceNumber)).Nodup := by
  have hsub :
      ((existing.filter (fun inv => inv.invoiceNumber ≠ m.invoiceNumber)).map
          (fun inv => inv.invoiceNumber)).Nodup :=
    h.sublist ((List.filter_sublist existing).map _)
  have hnotmem :
      m.invoiceNumber ∉
        (existing.filter (fun inv => inv.invoiceNumber ≠ m.invoiceNumber)).map
          (fun inv => inv.invoiceNumber) := by
    simp only [List.mem_map, List.mem_filter, decide_not, Bool.not_eq_true',
      decide_eq_false_iff_not]
    rintro ⟨x, ⟨_, hxne⟩, hxeq⟩
    exact hxne hxeq
  rw [saveInvoiceMetadata, List.map_append]
  exact hsub.append (List.nodup_singleton _)
    (by simp [List.disjoint_singleton, hnotmem])

theorem foldl_saveInvoiceMetadata_nodup (saves : List InvoiceMetadata) :
    ∀ acc : List InvoiceMetadata,
      (acc.map (fun inv => inv.invoiceNumber)).Nodup →
      ((saves.foldl saveInvoiceMetadata acc).map (fun inv => inv.invoiceNumber)).Nodup := by
  induction saves with
  | nil => intro acc h; simp only [List.foldl_nil]; exact h
  | cons m rest ih =>
      intro acc h
      exact ih _ (saveInvoiceMetadata_nodup acc m h)

/-- Claim C9: after every call to `saveInvoiceMetadata` the list holds
exactly one entry for the saved invoice number, and any metadata list built
purely by such saves (starting from the empty file) never holds two entries
with the same invoice number. -/
theorem metadata_list_no_duplicate_numbers :
    (∀ (existing : List InvoiceMetadata) (metadata : InvoiceMetadata),
        ((saveInvoiceMetadata existing metadata).filter
            (fun inv => inv.invoiceNumber = metadata.invoiceNumber)).length = 1) ∧
    (∀ saves : List InvoiceMetadata,
        ((saves.foldl saveInvoiceMetadata []).map (fun inv => inv.invoiceNumber)).Nodup) := by
  constructor
  · intro existing metadata
    rw [saveInvoiceMetadata, List.filter_append,
      filter_ne_then_eq (fun inv => inv.invoiceNumber) metadata.invoiceNumber existing]
    simp
  · intro saves
    exact foldl_saveInvoiceMetadata_nodup saves [] (by simp)

/-! ## The `/files/:filename` guard (`src/unnamed/part_003` lines 252-282,
`src/unnamed/part_004` lines 316-346, `src/unnamed/part_007` lines
266-296) -/

/-- The response of one GET on `/files/:filename`. -/
inductive ServeResult where
  | badRequest (message : String)
  | notFound
  | ok (bytes : PdfBytes)
deriving Repr, DecidableEq

/-- `join(process.cwd(), 'temp', filename)`, relative to the working
directory. -/
def tempFilePath (filename : String) : String :=
  "temp/" ++ filename

/-- The `/files/:filename` handler of the guarded variants: reject any
filename that does not end in ".pdf" or contains ".." or "/" with
400 Invalid filename before touching the disk; otherwise resolve inside
`temp/` and serve the bytes, or 404 when the file is absent.  The temp
directory is modelled as an association list from paths to bytes. -/
def serveFile (fs : List (String × PdfBytes)) (filename : String) : ServeResult :=
  if !strEndsWith filename ".pdf" || strIncludes filename ".." || strIncludes filename "/" then
    ServeResult.badRequest "Invalid filename"
  else
    match fs.lookup (tempFilePath filename) with
    | none => ServeResult.notFound
    | some bytes => ServeResult.ok bytes

/-- Claim C10: a filename that does not end in ".pdf", or contains "..", or
contains "/", is answered 400 Invalid filename whatever the disk contents —
so no file is read for it — and conversely every successful response serves
bytes looked up under `temp/<filename>` for a filename that ends in ".pdf"
and contains neither ".." nor "/", hence a .pdf resolved directly inside the
temp directory. -/
theorem files_endpoint_guard :
    (∀ (fs : List (String × PdfBytes)) (filename : String),
        (strEndsWith filename ".pdf" = false ∨ strIncludes filename ".." = true ∨
            strIncludes filename "/" = true) →
        serveFile fs filename = ServeResult.badRequest "Invalid filename") ∧
    (∀ (fs : List (String × PdfBytes)) (filename : String) (bytes : PdfBytes),
        serveFile fs filename = ServeResult.ok bytes →
        strEndsWith filename ".pdf" = true ∧ strIncludes filename ".." = false ∧
        strIncludes filename "/" = false ∧
        fs.lookup (tempFilePath filename) = some bytes) := by
  constructor
  · intro fs filename h
    rcases h with h | h | h <;> simp [serveFile, h]
  · intro fs filename bytes h
    unfold serveFile at h
    cases hb : (!strEndsWith filename ".pdf" || strIncludes filename ".." ||
        strIncludes filename "/") with
    | true =>
        rw [hb] at h
        simp at h
    | false =>
        rw [hb] at h
        simp only [Bool.or_eq_false_iff, Bool.not_eq_false'] at hb
        refine ⟨hb.1.1, hb.1.2, hb.2, ?_⟩
        simp only [Bool.false_eq_true, if_false] at h
        cases hlook : fs.lookup (tempFilePath filename) with
        | none => rw [hlook] at h; exact absurd h (by simp)
        | some b =>
            rw [hlook] at h
            simp at h
            rw [h]

/-- The disk contents for the C10 witness: one PDF inside `temp/`. -/
def demoTempDir : List (String × PdfBytes) :=
  [("temp/a.pdf", [1])]

/-- Claim C10 witness: the guard at concrete filenames — a non-PDF name and a
traversal attempt are both rejected against any disk contents, and a served
request is a .pdf resolved inside `temp/`. -/
theorem files_endpoint_guard_witness :
    serveFile [] "secrets.txt" = ServeResult.badRequest "Invalid filename" ∧
    serveFile demoTempDir "../a.pdf" = ServeResult.badRequest "Invalid filename" ∧
    (strEndsWith "a.pdf" ".pdf" = true ∧ strIncludes "a.pdf" ".." = false ∧
     strIncludes "a.pdf" "/" = false ∧
     demoTempDir.lookup (tempFilePath "a.pdf") = some [1]) :=
  ⟨files_endpoint_guard.1 [] "secrets.txt" (Or.inl (by decide)),
   files_endpoint_guard.1 demoTempDir "../a.pdf" (Or.inr (Or.inl (by decide))),
   files_endpoint_guard.2 demoTempDir "a.pdf" [1] (by decide)⟩

end InvoiceMCP
